import Mathlib

/-!
Verification development for the datawaster bandwidth stress engine
(useDataWaster hook in src/client/App.tsx).  The React hook is embedded
shallowly: the React state cells and mutable refs become fields of a record,
each callback becomes a pure state transformer, and each worker loop becomes a
fold over an explicit trace of events (one event per resume-to-await segment,
which JS executes without interleaving).
-/

namespace DataWaster

/-- Transfer mode selector, from the union type Mode in App.tsx. -/
inductive Mode
  | download
  | upload
  | both
deriving DecidableEq, Repr

/-- Connection status, from the useState union of idle, connected, error. -/
inductive ConnStatus
  | idle
  | connected
  | error
deriving DecidableEq, Repr

/-- Worker role: one launched downloadWorker or uploadWorker invocation. -/
inductive Role
  | download
  | upload
deriving DecidableEq, Repr

/-- Fuel-bounded base-1024 logarithm, modelling the floor of
Math.log bytes / Math.log 1024 used by formatBytes for positive inputs. -/
def sizeIndexAux : Nat → Nat → Nat
  | 0, _ => 0
  | fuel + 1, b => if b < 1024 then 0 else sizeIndexAux fuel (b / 1024) + 1

/-- Size-unit index of a byte count; fuel 8 covers every 64-bit count. -/
def sizeIndex (b : Nat) : Nat := sizeIndexAux 8 b

/-- Rounded hundredths of b / d (nearest, half up), modelling toFixed 2 of the
floating-point quotient in formatBytes; exact for the quotients used here. -/
def toFixed2 (b d : Nat) : Nat := (200 * b + d) / (2 * d)

/-- Two-decimal rendering helper for the fractional part. -/
def twoDigits (n : Nat) : String :=
  (if n < 10 then "0" else "") ++ toString n

/-- Lean model of formatBytes from App.tsx: the string 0 B for zero, otherwise
the value scaled into the matching unit with two decimals.  The JS original
divides in floating point; this model rounds the exact rational, which agrees
on the inputs used in this development. -/
def formatBytes (bytes : Nat) : String :=
  if bytes = 0 then "0 B"
  else
    let sizes := ["B", "KB", "MB", "GB", "TB"]
    let i := sizeIndex bytes
    let v := toFixed2 bytes (1024 ^ i)
    toString (v / 100) ++ "." ++ twoDigits (v % 100) ++ " " ++ sizes.getD i ""

/-- Stop reason recorded when the byte budget is reached; both workers pass
this string to stopWithReason. -/
def targetReachedMsg (limitBytes : Nat) : String :=
  "✓ Target reached: " ++ formatBytes limitBytes

/-- Budget configuration, from limitRef.current: enabled flag and the limit in
bytes (dataLimitMB times 1024 squared). -/
structure LimitCfg where
  enabled : Bool
  limitBytes : Nat
deriving DecidableEq, Repr

/-- Engine state of the useDataWaster hook: the React state cells (active,
stoppedReason, connectionStatus) and the mutable refs (activeRef, bytesRef,
lastBytesRef, startTimeRef, abortRef).  abortRef models the AbortController
slot: none is the initial null, some b a controller whose signal has
aborted = b. -/
structure EngineState where
  active : Bool
  activeRef : Bool
  bytes : Nat
  lastBytes : Nat
  startTime : Nat
  stoppedReason : Option String
  connectionStatus : ConnStatus
  abortRef : Option Bool
deriving DecidableEq, Repr

/-- Model of stopWithReason: record the reason, set active to false, and abort
the current controller when one exists.  It does not clear activeRef and does
not touch connectionStatus. -/
def stopWithReason (reason : String) (s : EngineState) : EngineState :=
  { s with stoppedReason := some reason
         , active := false
         , abortRef := s.abortRef.map fun _ => true }

/-- Model of stop: clear activeRef, abort the controller when one exists, set
active to false and reset connectionStatus to idle.  Aborting a null or an
already-aborted controller is a no-op, so the function is total. -/
def stop (s : EngineState) : EngineState :=
  { s with activeRef := false
         , abortRef := s.abortRef.map fun _ => true
         , active := false
         , connectionStatus := .idle }

/-- Start parameters: the threads slider value and the selected mode. -/
structure StartCfg where
  threads : Nat
  mode : Mode
deriving DecidableEq, Repr

/-- Worker launches of one iteration of the start loop: a download worker when
mode is download or both, then an upload worker when mode is upload or both. -/
def iterRoles (mode : Mode) : List Role :=
  (if mode = Mode.download ∨ mode = Mode.both then [Role.download] else []) ++
  (if mode = Mode.upload ∨ mode = Mode.both then [Role.upload] else [])

/-- All worker launches of start: the loop body runs once per thread slot. -/
def workersFor (mode : Mode) (threads : Nat) : List Role :=
  (List.replicate threads (iterRoles mode)).flatten

/-- Model of start: it performs no already-running check; it unconditionally
clears the stop reason, resets connectionStatus, the byte counters and the
start time, sets both active flags, installs a fresh unaborted controller
(discarding the previous controller without aborting it), and launches the
workers returned in the second component. -/
def start (cfg : StartCfg) (now : Nat) (s : EngineState) : EngineState × List Role :=
  ({ s with stoppedReason := none
          , connectionStatus := .idle
          , startTime := now
          , bytes := 0
          , lastBytes := 0
          , activeRef := true
          , abortRef := some false
          , active := true },
   workersFor cfg.mode cfg.threads)

/-- Result of the inner read loop of a download worker: the engine state when
the loop ends, whether reader.cancel was called, and whether the worker
returned on the budget path (reader cancelled, stopWithReason, return). -/
structure StreamResult where
  state : EngineState
  readerCancelled : Bool
  exitedByBudget : Bool
deriving DecidableEq, Repr

/-- Inner read loop of downloadWorker over the list of chunk lengths delivered
by the reader: each step first applies the break on an aborted signal, then
adds the chunk length to the byte counter, then re-checks the budget; on
satisfaction it cancels the reader, calls stopWithReason with the
target-reached message and returns. -/
def readLoop (L : LimitCfg) : List Nat → EngineState → StreamResult
  | [], s => ⟨s, false, false⟩
  | c :: rest, s =>
    if s.abortRef = some true then ⟨s, false, false⟩
    else
      let s1 := { s with bytes := s.bytes + c }
      if L.enabled = true ∧ L.limitBytes ≤ s1.bytes then
        ⟨stopWithReason (targetReachedMsg L.limitBytes) s1, true, true⟩
      else readLoop L rest s1

/-- Backoff delay in milliseconds after the n-th consecutive failure, from
Math.min of 500 times 2 to the power (retryCount - 1) and 2000.  The catch
block increments retryCount before sleeping, so n is at least 1 here. -/
def backoffDelay (retryCount : Nat) : Nat :=
  min (500 * 2 ^ (retryCount - 1)) 2000

/-- Wall-clock time at which the backoff sleep completes.  The sleep in both
workers is a bare promise resolved by setTimeout with no abort listener, so it
resolves exactly backoffDelay later regardless of whether, and when, the
cancellation signal fires in the meantime; the cancelAt argument records such
a cancellation and is ignored, as in the code. -/
def backoffWakeTime (startMs : Nat) (retryCount : Nat) (cancelAt : Option Nat) : Nat :=
  startMs + backoffDelay retryCount

/-- Byte length of the fixed upload filler chunk, a Uint8Array of 512 * 1024
bytes allocated once in the hook. -/
def uploadChunkLen : Nat := 512 * 1024

/-- Outcome of one upload POST attempt, as the code distinguishes them. -/
inductive UploadOutcome
  | okResp
  | badStatus
  | netErr
  | abortedErr
deriving DecidableEq, Repr

/-- One iteration body of uploadWorker after the budget precheck: on an ok
response the status becomes connected, retryCount resets and the chunk length
is added to the byte counter; a non-ok status or a network error increments
retryCount and flips connectionStatus to error once it reaches 3; an abort
returns immediately with nothing counted.  Returns the engine state, the new
retryCount and whether the worker returned. -/
def uploadAttempt (s : EngineState) (retryCount : Nat) (o : UploadOutcome) :
    EngineState × Nat × Bool :=
  match o with
  | .okResp =>
      ({ s with connectionStatus := .connected, bytes := s.bytes + uploadChunkLen }, 0, false)
  | .badStatus =>
      let rc := retryCount + 1
      ({ s with connectionStatus := if 3 ≤ rc then .error else s.connectionStatus }, rc, false)
  | .netErr =>
      let rc := retryCount + 1
      ({ s with connectionStatus := if 3 ≤ rc then .error else s.connectionStatus }, rc, false)
  | .abortedErr => (s, retryCount, true)

/-- Events of one download worker at attempt granularity: responseOk is the
arrival of a response with ok status (lines that set connectionStatus to
connected and reset retryCount, before any body chunk is read); chunkRead is
one body chunk; failNoAbort is the catch block with the signal not aborted;
failAbort is the catch block with the signal aborted (immediate return). -/
inductive WorkerEvent
  | responseOk
  | chunkRead (len : Nat)
  | failNoAbort
  | failAbort
deriving DecidableEq, Repr

/-- Per-worker view for the retry machinery: the consecutive-failure counter,
the shared connectionStatus, and whether the worker has returned. -/
structure WorkerSt where
  retryCount : Nat
  status : ConnStatus
  exited : Bool
deriving DecidableEq, Repr

/-- Transition of the download worker on one event, from the attempt loop:
an ok response sets status connected and resets the counter before any chunk;
reading a chunk touches neither the counter nor the status; a non-abort
failure increments the counter and sets status error once it reaches 3; an
abort failure returns without counting.  A worker that has returned produces
no further effects. -/
def workerStep (st : WorkerSt) (e : WorkerEvent) : WorkerSt :=
  if st.exited then st
  else
    match e with
    | .responseOk => { st with status := .connected, retryCount := 0 }
    | .chunkRead _ => st
    | .failNoAbort =>
        let rc := st.retryCount + 1
        { st with retryCount := rc, status := if 3 ≤ rc then .error else st.status }
    | .failAbort => { st with exited := true }

/-- Fold of workerStep over an event trace. -/
def workerRun (st : WorkerSt) (es : List WorkerEvent) : WorkerSt :=
  es.foldl workerStep st

/-- Whether an event is the observation of a successful body chunk. -/
def isChunkRead : WorkerEvent → Bool
  | .chunkRead _ => true
  | _ => false

/-- Shared-state events for the multi-worker cancellation analysis, one per
uninterrupted JS segment: loopTop is a worker resuming at the while guard and
the budget precheck; chunkArrived is a worker resuming from reader.read with a
chunk (add bytes, then re-check).  The worker index records who acted. -/
inductive WEvent
  | loopTop (w : Nat)
  | chunkArrived (w : Nat) (len : Nat)
deriving DecidableEq, Repr

/-- Shared run state for the cancellation analysis: the byte counter, the
abort flag of the controller, how many times stopWithReason ran, which worker
ran it, and the recorded reason. -/
structure RunSt where
  bytes : Nat
  aborted : Bool
  triggers : Nat
  winner : Option Nat
  reason : Option String
deriving DecidableEq, Repr

/-- Effect of the synchronous segment in which worker w observes budget
satisfaction: reader cancel, stopWithReason (records the reason and aborts the
controller) and return.  The guard that the signal is not yet aborted and the
abort itself sit in one uninterrupted segment, which is what makes the
observe-and-trigger step atomic. -/
def wTrigger (L : LimitCfg) (w : Nat) (st : RunSt) : RunSt :=
  { st with aborted := true
          , triggers := st.triggers + 1
          , winner := some w
          , reason := some (targetReachedMsg L.limitBytes) }

/-- Transition of the shared state on one worker segment: a worker whose
signal is already aborted exits without effect; otherwise loopTop triggers
when the counter already satisfies the budget, and chunkArrived adds the chunk
length and triggers when the new total satisfies it. -/
def wStep (L : LimitCfg) (st : RunSt) (e : WEvent) : RunSt :=
  match e with
  | .loopTop w =>
      if st.aborted then st
      else if L.enabled = true ∧ L.limitBytes ≤ st.bytes then wTrigger L w st
      else st
  | .chunkArrived w c =>
      if st.aborted then st
      else
        let st1 := { st with bytes := st.bytes + c }
        if L.enabled = true ∧ L.limitBytes ≤ st1.bytes then wTrigger L w st1
        else st1

/-- Fold of wStep over a segment trace. -/
def wRun (L : LimitCfg) (st : RunSt) (es : List WEvent) : RunSt :=
  es.foldl (wStep L) st

/-- Published statistics snapshot, from the setStats object: the per-tick byte
delta, the cumulative total, and whole elapsed seconds. -/
structure Snapshot where
  speedBps : Int
  totalBytes : Nat
  elapsedSec : Nat
deriving DecidableEq, Repr

/-- Engine-level events within one run: a worker adding a chunk to the
counter, a sampler tick at a given wall-clock time, the external stop, and the
internal budget stop. -/
inductive EngineOp
  | addChunk (len : Nat)
  | tick (now : Nat)
  | extStop
  | budgetStop (reason : String)
deriving DecidableEq, Repr

/-- One engine event.  The sampler interval exists only while active is true
(the effect clears it otherwise), so a tick on an inactive state publishes
nothing; an active tick computes the delta against the sampling cursor, moves
the cursor, and publishes one snapshot. -/
def opStep (s : EngineState) : EngineOp → EngineState × Option Snapshot
  | .addChunk c => ({ s with bytes := s.bytes + c }, none)
  | .tick now =>
      if s.active then
        ({ s with lastBytes := s.bytes },
         some ⟨(s.bytes : Int) - (s.lastBytes : Int), s.bytes, (now - s.startTime) / 1000⟩)
      else (s, none)
  | .extStop => (stop s, none)
  | .budgetStop r => (stopWithReason r s, none)

/-- Fold of opStep over a trace, collecting every published snapshot. -/
def opRun : EngineState → List EngineOp → EngineState × List Snapshot
  | s, [] => (s, [])
  | s, op :: rest =>
      let p := opStep s op
      let q := opRun p.1 rest
      (q.1, p.2.toList ++ q.2)

/-- Invariant of the cancellation analysis: either no trigger has happened and
the controller is unaborted with no winner and no reason, or exactly one
trigger has happened, the controller is aborted, some worker won and the
target-reached reason is recorded. -/
def cancelInv (L : LimitCfg) (st : RunSt) : Prop :=
  (st.aborted = false ∧ st.triggers = 0 ∧ st.winner = none ∧ st.reason = none) ∨
  (st.aborted = true ∧ st.triggers = 1 ∧ (∃ w, st.winner = some w) ∧
    st.reason = some (targetReachedMsg L.limitBytes))

end DataWaster

namespace DataWaster

/-- C9: stop is idempotent — a second stop changes nothing, it is total on any
state including the initial one before any start (aborting a null controller
is a no-op), each call leaves running false with connectionStatus reset to
idle, and neither the byte counters nor the recorded reason are disturbed. -/
theorem stop_idempotent (s : EngineState) :
    stop (stop s) = stop s ∧
    (stop s).active = false ∧
    (stop s).activeRef = false ∧
    (stop s).connectionStatus = ConnStatus.idle ∧
    (stop s).bytes = s.bytes ∧
    (stop s).lastBytes = s.lastBytes ∧
    (stop s).stoppedReason = s.stoppedReason := by
  refine ⟨?_, rfl, rfl, rfl, rfl, rfl, rfl⟩
  cases s.abortRef <;> simp [stop]

/-- C10: one upload attempt adds exactly 524288 bytes — the length of the
fixed 512 KiB filler chunk — and only on an ok response; an attempt that
receives a non-ok status, that throws, or that aborts leaves the byte counter
unchanged. -/
theorem uploadAttempt_bytes (s : EngineState) (rc : Nat) :
    uploadChunkLen = 524288 ∧
    (uploadAttempt s rc UploadOutcome.okResp).1.bytes = s.bytes + 524288 ∧
    (uploadAttempt s rc UploadOutcome.badStatus).1.bytes = s.bytes ∧
    (uploadAttempt s rc UploadOutcome.netErr).1.bytes = s.bytes ∧
    (uploadAttempt s rc UploadOutcome.abortedErr).1.bytes = s.bytes :=
  ⟨rfl, rfl, rfl, rfl, rfl⟩

/-- C4 counterexample: with mode both and workerCount 4, start launches 8
workers — 4 download and 4 upload — not 4 split as 2 download and 2 upload as
the claim states. -/
theorem workersFor_both_four :
    (workersFor Mode.both 4).length = 8 ∧
    ((workersFor Mode.both 4).filter (fun r => r == Role.download)).length = 4 ∧
    ((workersFor Mode.both 4).filter (fun r => r == Role.upload)).length = 4 ∧
    (workersFor Mode.both 4).length ≠ 4 := by decide

/-- C4 amended: with mode both and workerCount N the start loop launches one
download worker and one upload worker on every iteration, so 2N workers in
total: N download and N upload. -/
theorem workersFor_both_counts (n : Nat) :
    (workersFor Mode.both n).length = 2 * n ∧
    ((workersFor Mode.both n).filter (fun r => r == Role.download)).length = n ∧
    ((workersFor Mode.both n).filter (fun r => r == Role.upload)).length = n := by
  induction n with
  | zero => exact ⟨rfl, rfl, rfl⟩
  | succ k ih =>
      obtain ⟨h1, h2, h3⟩ := ih
      refine ⟨?_, ?_, ?_⟩ <;>
        simp [workersFor, List.replicate_succ, iterRoles] at h1 h2 h3 ⊢ <;>
        omega

/-- C5 counterexample: a cancellation arriving 100 ms into the first backoff
does not shorten the sleep — the worker still wakes only at the full 500 ms
delay, because the setTimeout promise carries no abort listener. -/
theorem backoff_not_shortened :
    backoffDelay 1 = 500 ∧
    backoffWakeTime 0 1 (some 100) = 500 ∧
    ¬ backoffWakeTime 0 1 (some 100) < 0 + backoffDelay 1 := by decide

/-- C5 amended: the backoff delay after the n-th consecutive failure is
min (500 * 2 ^ (n - 1)) 2000, the sequence 500, 1000, 2000, 2000, ...; the
backoff sleep always completes in full — the wake time ignores a cancellation
arriving during the sleep, which the worker observes only at the next loop
check (the network read and send, by contrast, receive the abort signal). -/
theorem backoffDelay_spec (n k startMs : Nat) (c : Option Nat) (hk : 3 ≤ k) :
    backoffDelay n = min (500 * 2 ^ (n - 1)) 2000 ∧
    backoffDelay 1 = 500 ∧ backoffDelay 2 = 1000 ∧ backoffDelay k = 2000 ∧
    backoffWakeTime startMs n c = startMs + backoffDelay n := by
  refine ⟨rfl, rfl, rfl, ?_, rfl⟩
  have h4 : (4 : Nat) ≤ 2 ^ (k - 1) := by
    calc (4 : Nat) = 2 ^ 2 := rfl
    _ ≤ 2 ^ (k - 1) := Nat.pow_le_pow_right (by omega) (by omega)
  have h2000 : 2000 ≤ 500 * 2 ^ (k - 1) := by nlinarith
  simpa [backoffDelay] using Nat.min_eq_right h2000

/-- C5 amended witness at n = 1, k = 3, start 0, cancellation absent. -/
theorem backoffDelay_spec_witness :
    backoffDelay 1 = min (500 * 2 ^ (1 - 1)) 2000 ∧
    backoffDelay 1 = 500 ∧ backoffDelay 2 = 1000 ∧ backoffDelay 3 = 2000 ∧
    backoffWakeTime 0 1 none = 0 + backoffDelay 1 :=
  backoffDelay_spec 1 3 0 none (by decide)

/-- C6 counterexample: on a run whose connection is established, the internal
budget stop leaves connectionStatus connected while an external stop resets it
to idle, so the two stop paths do not have identical semantics. -/
theorem budgetStop_ne_stop :
    (stopWithReason (targetReachedMsg 10485760)
        ⟨true, true, 10485760, 0, 0, none, ConnStatus.connected, some false⟩).connectionStatus
      = ConnStatus.connected ∧
    (stop ⟨true, true, 10485760, 0, 0, none, ConnStatus.connected,
        some false⟩).connectionStatus = ConnStatus.idle ∧
    ConnStatus.connected ≠ ConnStatus.idle := by decide

/-- C6 amended: the internal budget stop agrees with the external stop in
setting running to false and aborting the controller, and additionally records
the stop reason; unlike stop it leaves connectionStatus and activeRef
untouched, while stop resets connectionStatus to idle, clears activeRef and
records no reason. -/
theorem stopWithReason_vs_stop (s : EngineState) (r : String) :
    (stopWithReason r s).active = false ∧
    (stopWithReason r s).abortRef = s.abortRef.map (fun _ => true) ∧
    (stopWithReason r s).stoppedReason = some r ∧
    (stopWithReason r s).connectionStatus = s.connectionStatus ∧
    (stopWithReason r s).activeRef = s.activeRef ∧
    (stop s).active = false ∧
    (stop s).abortRef = s.abortRef.map (fun _ => true) ∧
    (stop s).connectionStatus = ConnStatus.idle ∧
    (stop s).activeRef = false ∧
    (stop s).stoppedReason = s.stoppedReason :=
  ⟨rfl, rfl, rfl, rfl, rfl, rfl, rfl, rfl, rfl, rfl⟩

/-- C1 counterexample: on a state with an active run and 100 counted bytes,
calling start again neither fails nor is a no-op — it resets the byte counters
and the start time and launches 4 fresh workers. -/
theorem start_while_active :
    (⟨true, true, 100, 50, 5, none, ConnStatus.connected, some false⟩ :
        EngineState).active = true ∧
    (⟨true, true, 100, 50, 5, none, ConnStatus.connected, some false⟩ :
        EngineState).bytes = 100 ∧
    (start ⟨4, Mode.download⟩ 10
        ⟨true, true, 100, 50, 5, none, ConnStatus.connected, some false⟩).1.bytes = 0 ∧
    (start ⟨4, Mode.download⟩ 10
        ⟨true, true, 100, 50, 5, none, ConnStatus.connected, some false⟩).1.lastBytes = 0 ∧
    (start ⟨4, Mode.download⟩ 10
        ⟨true, true, 100, 50, 5, none, ConnStatus.connected, some false⟩).1.startTime = 10 ∧
    (start ⟨4, Mode.download⟩ 10
        ⟨true, true, 100, 50, 5, none, ConnStatus.connected, some false⟩).2.length = 4 := by
  decide

/-- C1 amended: start performs no already-running check — called while a run
is active it succeeds anyway, clears the stop reason, resets connectionStatus,
totalBytes, lastSampledBytes and startedAt, installs a fresh unaborted
controller without aborting the previous one, and launches a full new set of
workers. -/
theorem start_no_guard (cfg : StartCfg) (now : Nat) (s : EngineState)
    (h : s.active = true) :
    (start cfg now s).1.bytes = 0 ∧
    (start cfg now s).1.lastBytes = 0 ∧
    (start cfg now s).1.startTime = now ∧
    (start cfg now s).1.active = true ∧
    (start cfg now s).1.activeRef = true ∧
    (start cfg now s).1.stoppedReason = none ∧
    (start cfg now s).1.connectionStatus = ConnStatus.idle ∧
    (start cfg now s).1.abortRef = some false ∧
    (start cfg now s).2 = workersFor cfg.mode cfg.threads :=
  ⟨rfl, rfl, rfl, rfl, rfl, rfl, rfl, rfl, rfl⟩

/-- C1 amended witness on an active run with 4 download threads. -/
theorem start_no_guard_witness :
    (start ⟨4, Mode.download⟩ 10
        ⟨true, true, 100, 50, 5, none, ConnStatus.idle, some false⟩).1.bytes = 0 ∧
    (start ⟨4, Mode.download⟩ 10
        ⟨true, true, 100, 50, 5, none, ConnStatus.idle, some false⟩).1.lastBytes = 0 ∧
    (start ⟨4, Mode.download⟩ 10
        ⟨true, true, 100, 50, 5, none, ConnStatus.idle, some false⟩).1.startTime = 10 ∧
    (start ⟨4, Mode.download⟩ 10
        ⟨true, true, 100, 50, 5, none, ConnStatus.idle, some false⟩).1.active = true ∧
    (start ⟨4, Mode.download⟩ 10
        ⟨true, true, 100, 50, 5, none, ConnStatus.idle, some false⟩).1.activeRef = true ∧
    (start ⟨4, Mode.download⟩ 10
        ⟨true, true, 100, 50, 5, none, ConnStatus.idle, some false⟩).1.stoppedReason = none ∧
    (start ⟨4, Mode.download⟩ 10
        ⟨true, true, 100, 50, 5, none, ConnStatus.idle, some false⟩).1.connectionStatus
      = ConnStatus.idle ∧
    (start ⟨4, Mode.download⟩ 10
        ⟨true, true, 100, 50, 5, none, ConnStatus.idle, some false⟩).1.abortRef = some false ∧
    (start ⟨4, Mode.download⟩ 10
        ⟨true, true, 100, 50, 5, none, ConnStatus.idle, some false⟩).2
      = workersFor Mode.download 4 :=
  start_no_guard ⟨4, Mode.download⟩ 10
    ⟨true, true, 100, 50, 5, none, ConnStatus.idle, some false⟩ rfl

/-- One worker segment preserves the cancellation invariant: a trigger can
only fire from the unaborted branch, and once aborted every segment is a
no-op. -/
theorem cancelInv_step (L : LimitCfg) (st : RunSt) (e : WEvent)
    (h : cancelInv L st) : cancelInv L (wStep L st e) := by
  rcases h with ⟨ha, ht, hw, hr⟩ | ⟨ha, ht, hw, hr⟩
  · cases e with
    | loopTop w =>
        simp only [wStep, ha, if_false, Bool.false_eq_true]
        split
        · exact Or.inr ⟨rfl, by simp [wTrigger, ht], ⟨w, rfl⟩, by simp [wTrigger]⟩
        · exact Or.inl ⟨ha, ht, hw, hr⟩
    | chunkArrived w c =>
        simp only [wStep, ha, if_false, Bool.false_eq_true]
        split
        · exact Or.inr ⟨rfl, by simp [wTrigger, ht], ⟨w, rfl⟩, by simp [wTrigger]⟩
        · exact Or.inl ⟨rfl, ht, hw, hr⟩
  · cases e with
    | loopTop w =>
        simp only [wStep, ha, if_true]
        exact Or.inr ⟨ha, ht, hw, hr⟩
    | chunkArrived w c =>
        simp only [wStep, ha, if_true]
        exact Or.inr ⟨ha, ht, hw, hr⟩

/-- The cancellation invariant is preserved along any segment trace. -/
theorem cancelInv_run (L : LimitCfg) (es : List WEvent) (st : RunSt)
    (h : cancelInv L st) : cancelInv L (wRun L st es) := by
  induction es generalizing st with
  | nil => exact h
  | cons e rest ih =>
      have hstep := cancelInv_step L st e h
      simpa [wRun, List.foldl_cons] using ih (wStep L st e) hstep

/-- C3 amended: across any interleaving of worker segments within one run the
cancellation flag is set to cancelled at most once — the single-trigger
guarantee comes from the not-yet-aborted guard and the abort sitting in one
uninterrupted JS segment, not from an explicit compare-and-set — and when a
trigger happens, exactly one worker wins and records the target-reached stop
reason in the formatted-size form the code produces. -/
theorem cancel_at_most_once (L : LimitCfg) (es : List WEvent) (st : RunSt)
    (h0 : st.aborted = false) (h1 : st.triggers = 0)
    (h2 : st.winner = none) (h3 : st.reason = none) :
    (wRun L st es).triggers ≤ 1 ∧
    ((wRun L st es).aborted = true ↔ (wRun L st es).triggers = 1) ∧
    ((wRun L st es).triggers = 1 →
      (∃ w, (wRun L st es).winner = some w) ∧
      (wRun L st es).reason = some (targetReachedMsg L.limitBytes)) := by
  have hinv := cancelInv_run L es st (Or.inl ⟨h0, h1, h2, h3⟩)
  rcases hinv with ⟨ha, ht, hw, hr⟩ | ⟨ha, ht, hw, hr⟩
  · refine ⟨by omega, ?_, ?_⟩
    · constructor
      · intro hab; rw [ha] at hab; cases hab
      · intro htr; omega
    · intro htr; omega
  · refine ⟨by omega, ?_, fun _ => ⟨hw, hr⟩⟩
    constructor
    · intro _; exact ht
    · intro _; exact ha

/-- C3 amended witness: a 5-byte budget, worker 0 crosses it with a 10-byte
chunk, worker 1 then observes at its loop top and is a no-op. -/
theorem cancel_at_most_once_witness :
    (wRun ⟨true, 5⟩ ⟨0, false, 0, none, none⟩
        [WEvent.chunkArrived 0 10, WEvent.loopTop 1]).triggers ≤ 1 ∧
    ((wRun ⟨true, 5⟩ ⟨0, false, 0, none, none⟩
        [WEvent.chunkArrived 0 10, WEvent.loopTop 1]).aborted = true ↔
      (wRun ⟨true, 5⟩ ⟨0, false, 0, none, none⟩
        [WEvent.chunkArrived 0 10, WEvent.loopTop 1]).triggers = 1) ∧
    ((wRun ⟨true, 5⟩ ⟨0, false, 0, none, none⟩
        [WEvent.chunkArrived 0 10, WEvent.loopTop 1]).triggers = 1 →
      (∃ w, (wRun ⟨true, 5⟩ ⟨0, false, 0, none, none⟩
        [WEvent.chunkArrived 0 10, WEvent.loopTop 1]).winner = some w) ∧
      (wRun ⟨true, 5⟩ ⟨0, false, 0, none, none⟩
        [WEvent.chunkArrived 0 10, WEvent.loopTop 1]).reason
          = some (targetReachedMsg 5)) :=
  cancel_at_most_once ⟨true, 5⟩ [WEvent.chunkArrived 0 10, WEvent.loopTop 1]
    ⟨0, false, 0, none, none⟩ rfl rfl rfl rfl

/-- C3 counterexample: the winning worker of a 10 MiB budget run records the
formatted-size reason, not the literal byte-count string of the claim. -/
theorem cancel_reason_literal :
    (wRun ⟨true, 10485760⟩ ⟨0, false, 0, none, none⟩
        [WEvent.chunkArrived 0 10485760]).reason
      = some "✓ Target reached: 10.00 MB" ∧
    (wRun ⟨true, 10485760⟩ ⟨0, false, 0, none, none⟩
        [WEvent.chunkArrived 0 10485760]).reason
      ≠ some "target reached: 10485760 bytes" := by decide

/-- Consecutive non-abort failures from counter r: the counter advances by one
per failure and the shared status flips to error as soon as the counter meets
3 (and is re-set to error on every later consecutive failure); the worker does
not exit. -/
theorem workerRun_fail (r : Nat) (s : ConnStatus) (k : Nat) :
    workerRun ⟨r, s, false⟩ (List.replicate k WorkerEvent.failNoAbort)
      = ⟨r + k, if 1 ≤ k ∧ 3 ≤ r + k then ConnStatus.error else s, false⟩ := by
  induction k generalizing r s with
  | zero => simp [workerRun]
  | succ n ih =>
      rw [List.replicate_succ]
      have hstep : workerStep ⟨r, s, false⟩ WorkerEvent.failNoAbort
          = ⟨r + 1, if 3 ≤ r + 1 then ConnStatus.error else s, false⟩ := by
        simp [workerStep]
      have hrun : workerRun ⟨r, s, false⟩
          (WorkerEvent.failNoAbort :: List.replicate n WorkerEvent.failNoAbort)
          = workerRun ⟨r + 1, if 3 ≤ r + 1 then ConnStatus.error else s, false⟩
              (List.replicate n WorkerEvent.failNoAbort) := by
        simp [workerRun, List.foldl_cons, hstep]
      rw [hrun, ih]
      by_cases h3 : 3 ≤ r + 1
      · rw [if_pos h3]
        simp only [WorkerSt.mk.injEq]
        refine ⟨by omega, ?_, trivial⟩
        rw [if_pos (show 1 ≤ n + 1 ∧ 3 ≤ r + (n + 1) by omega)]
        split <;> rfl
      · rw [if_neg h3]
        simp only [WorkerSt.mk.injEq]
        refine ⟨by omega, ?_, trivial⟩
        have heq : (1 ≤ n ∧ 3 ≤ r + 1 + n) ↔ (1 ≤ n + 1 ∧ 3 ≤ r + (n + 1)) := by omega
        simp only [heq]

/-- C7 amended: the failure machinery of a worker — after k consecutive
non-abort failures from a fresh counter the counter is k, the status is error
exactly when k has reached 3, and the worker has not exited (it keeps
retrying, no stop of the run); an abort in the catch block exits immediately
without touching the counter or the status; and an ok response (received
before any body chunk) resets the counter and sets the status back to
connected. -/
theorem worker_failure_machine (s0 : ConnStatus) (k : Nat) (st : WorkerSt)
    (hex : st.exited = false) :
    workerRun ⟨0, s0, false⟩ (List.replicate k WorkerEvent.failNoAbort)
      = ⟨k, if 3 ≤ k then ConnStatus.error else s0, false⟩ ∧
    workerStep st WorkerEvent.failAbort
      = { st with exited := true } ∧
    (workerStep st WorkerEvent.failAbort).retryCount = st.retryCount ∧
    (workerStep st WorkerEvent.failAbort).status = st.status ∧
    workerStep st WorkerEvent.responseOk
      = { st with status := ConnStatus.connected, retryCount := 0 } := by
  refine ⟨?_, ?_, ?_, ?_, ?_⟩
  · have h := workerRun_fail 0 s0 k
    rw [h]
    simp only [WorkerSt.mk.injEq]
    have heq : (1 ≤ k ∧ 3 ≤ 0 + k) ↔ 3 ≤ k := by omega
    refine ⟨by omega, ?_, trivial⟩
    simp only [heq]
  · simp [workerStep, hex]
  · simp [workerStep, hex]
  · simp [workerStep, hex]
  · simp [workerStep, hex]

/-- C7 amended witness: three failures from a fresh counter on a worker whose
status starts idle, and the abort and ok-response steps on a concrete
mid-retry worker state. -/
theorem worker_failure_machine_witness :
    workerRun ⟨0, ConnStatus.idle, false⟩
        (List.replicate 3 WorkerEvent.failNoAbort)
      = ⟨3, if 3 ≤ 3 then ConnStatus.error else ConnStatus.idle, false⟩ ∧
    workerStep ⟨2, ConnStatus.idle, false⟩ WorkerEvent.failAbort
      = { (⟨2, ConnStatus.idle, false⟩ : WorkerSt) with exited := true } ∧
    (workerStep ⟨2, ConnStatus.idle, false⟩ WorkerEvent.failAbort).retryCount = 2 ∧
    (workerStep ⟨2, ConnStatus.idle, false⟩ WorkerEvent.failAbort).status
      = ConnStatus.idle ∧
    workerStep ⟨2, ConnStatus.idle, false⟩ WorkerEvent.responseOk
      = { (⟨2, ConnStatus.idle, false⟩ : WorkerSt) with
            status := ConnStatus.connected, retryCount := 0 } :=
  worker_failure_machine ConnStatus.idle 3 ⟨2, ConnStatus.idle, false⟩ rfl

/-- C7 counterexample: after three consecutive failures the fourth attempt
flips connectionStatus back to connected already upon the ok response, before
any body chunk — the trace contains no chunk observation at all, refuting that
the revert waits for the next successful chunk. -/
theorem status_reverts_before_chunk :
    workerRun ⟨0, ConnStatus.idle, false⟩
        [WorkerEvent.failNoAbort, WorkerEvent.failNoAbort, WorkerEvent.failNoAbort,
         WorkerEvent.responseOk]
      = ⟨0, ConnStatus.connected, false⟩ ∧
    ([WorkerEvent.failNoAbort, WorkerEvent.failNoAbort, WorkerEvent.failNoAbort,
      WorkerEvent.responseOk].filter isChunkRead) = [] := by decide

/-- Shape analysis of the read loop below the budget with an unaborted signal:
either every chunk is consumed, all lengths are added and the total stays
below the budget, or the loop stops on the first chunk whose addition crosses
the budget, having cancelled the reader and stopped the run. -/
theorem readLoop_cases (L : LimitCfg) (chunks : List Nat) (s : EngineState)
    (hen : L.enabled = true) (hsig : s.abortRef = some false)
    (hlt : s.bytes < L.limitBytes) :
    (readLoop L chunks s = ⟨{ s with bytes := s.bytes + chunks.sum }, false, false⟩ ∧
      s.bytes + chunks.sum < L.limitBytes) ∨
    (∃ p c rest, chunks = p ++ c :: rest ∧
      s.bytes + p.sum < L.limitBytes ∧
      L.limitBytes ≤ s.bytes + p.sum + c ∧
      readLoop L chunks s =
        ⟨stopWithReason (targetReachedMsg L.limitBytes)
            { s with bytes := s.bytes + p.sum + c }, true, true⟩) := by
  induction chunks generalizing s with
  | nil =>
      left
      constructor
      · show readLoop L [] s = _
        simp [readLoop]
      · simpa using hlt
  | cons c rest ih =>
      have hne : ¬ s.abortRef = some true := by rw [hsig]; simp
      by_cases hcross : L.limitBytes ≤ s.bytes + c
      · right
        refine ⟨[], c, rest, rfl, by simpa using hlt, by simpa using hcross, ?_⟩
        simp [readLoop, hne, hen, hcross]
      · have hlt1 : s.bytes + c < L.limitBytes := by omega
        have hstep : readLoop L (c :: rest) s
            = readLoop L rest { s with bytes := s.bytes + c } := by
          simp [readLoop, hne, hen, hcross]
        rcases ih { s with bytes := s.bytes + c } hsig hlt1 with ⟨hrun, hsum⟩ | hstop
        · left
          have h3 : readLoop L rest { s with bytes := s.bytes + c }
              = ⟨{ s with bytes := s.bytes + c + rest.sum }, false, false⟩ := hrun
          have h4 : s.bytes + c + rest.sum < L.limitBytes := hsum
          constructor
          · rw [hstep, h3]
            have harith : s.bytes + c + rest.sum = s.bytes + (c :: rest).sum := by
              simp only [List.sum_cons]
              omega
            rw [harith]
          · simp only [List.sum_cons]
            omega
        · right
          obtain ⟨p, c1, r1, hcat, hbelow, habove, hrun⟩ := hstop
          have hb : s.bytes + c + p.sum < L.limitBytes := hbelow
          have ha2 : L.limitBytes ≤ s.bytes + c + p.sum + c1 := habove
          have h5 : readLoop L rest { s with bytes := s.bytes + c }
              = ⟨stopWithReason (targetReachedMsg L.limitBytes)
                  { s with bytes := s.bytes + c + p.sum + c1 }, true, true⟩ := hrun
          refine ⟨c :: p, c1, r1, by rw [hcat, List.cons_append], ?_, ?_, ?_⟩
          · simp only [List.sum_cons]; omega
          · simp only [List.sum_cons]; omega
          · rw [hstep, h5]
            have harith : s.bytes + c + p.sum + c1 = s.bytes + (c :: p).sum + c1 := by
              simp only [List.sum_cons]; omega
            rw [harith]

/-- C2: with the budget enabled, the signal unaborted and the budget not yet
reached, the download read loop adds every chunk it receives to the counter
and re-checks the budget immediately after each addition: whenever the final
total reaches the budget the loop has exited on the budget path, and on that
path it cancelled the in-flight reader, aborted the shared controller,
recorded the completion stop reason and stopped the run at the very first
chunk that crossed the budget, so the overshoot stays below one in-flight
chunk (any bound M on the chunk lengths bounds it); when the budget path is
not taken every chunk was added and the total stayed below the budget. -/
theorem downloadWorker_budget (L : LimitCfg) (chunks : List Nat)
    (s : EngineState) (M : Nat)
    (hen : L.enabled = true) (hsig : s.abortRef = some false)
    (hlt : s.bytes < L.limitBytes) (hM : ∀ c ∈ chunks, c ≤ M) :
    (L.limitBytes ≤ (readLoop L chunks s).state.bytes →
      (readLoop L chunks s).exitedByBudget = true) ∧
    ((readLoop L chunks s).exitedByBudget = true →
      (readLoop L chunks s).readerCancelled = true ∧
      (readLoop L chunks s).state.abortRef = some true ∧
      (readLoop L chunks s).state.active = false ∧
      (readLoop L chunks s).state.stoppedReason
        = some (targetReachedMsg L.limitBytes) ∧
      L.limitBytes ≤ (readLoop L chunks s).state.bytes ∧
      (readLoop L chunks s).state.bytes < L.limitBytes + M) ∧
    ((readLoop L chunks s).exitedByBudget = false →
      (readLoop L chunks s).state.bytes = s.bytes + chunks.sum ∧
      (readLoop L chunks s).state.bytes < L.limitBytes) := by
  rcases readLoop_cases L chunks s hen hsig hlt with ⟨hrun, hsum⟩ | hstop
  · rw [hrun]
    refine ⟨fun h => absurd h (by simpa using Nat.not_le.mpr hsum), ?_, ?_⟩
    · intro h; cases h
    · intro; exact ⟨rfl, by simpa using hsum⟩
  · obtain ⟨p, c, rest, hcat, hbelow, habove, hrun⟩ := hstop
    have hcM : c ≤ M := hM c (by rw [hcat]; exact List.mem_append_right p (List.mem_cons_self c rest))
    rw [hrun]
    refine ⟨fun _ => rfl, ?_, ?_⟩
    · intro
      refine ⟨rfl, by simp [stopWithReason, hsig], rfl, rfl, by simpa using habove, ?_⟩
      show s.bytes + p.sum + c < L.limitBytes + M
      omega
    · intro h; cases h

/-- C2 witness: a 10-byte budget, chunks of length 4, fresh run state; the
loop exits on the third chunk with 12 bytes counted. -/
theorem downloadWorker_budget_witness :
    (10 ≤ (readLoop ⟨true, 10⟩ [4, 4, 4]
        ⟨true, true, 0, 0, 0, none, ConnStatus.idle, some false⟩).state.bytes →
      (readLoop ⟨true, 10⟩ [4, 4, 4]
        ⟨true, true, 0, 0, 0, none, ConnStatus.idle, some false⟩).exitedByBudget = true) ∧
    ((readLoop ⟨true, 10⟩ [4, 4, 4]
        ⟨true, true, 0, 0, 0, none, ConnStatus.idle, some false⟩).exitedByBudget = true →
      (readLoop ⟨true, 10⟩ [4, 4, 4]
        ⟨true, true, 0, 0, 0, none, ConnStatus.idle, some false⟩).readerCancelled = true ∧
      (readLoop ⟨true, 10⟩ [4, 4, 4]
        ⟨true, true, 0, 0, 0, none, ConnStatus.idle, some false⟩).state.abortRef = some true ∧
      (readLoop ⟨true, 10⟩ [4, 4, 4]
        ⟨true, true, 0, 0, 0, none, ConnStatus.idle, some false⟩).state.active = false ∧
      (readLoop ⟨true, 10⟩ [4, 4, 4]
        ⟨true, true, 0, 0, 0, none, ConnStatus.idle, some false⟩).state.stoppedReason
        = some (targetReachedMsg 10) ∧
      10 ≤ (readLoop ⟨true, 10⟩ [4, 4, 4]
        ⟨true, true, 0, 0, 0, none, ConnStatus.idle, some false⟩).state.bytes ∧
      (readLoop ⟨true, 10⟩ [4, 4, 4]
        ⟨true, true, 0, 0, 0, none, ConnStatus.idle, some false⟩).state.bytes < 10 + 4) ∧
    ((readLoop ⟨true, 10⟩ [4, 4, 4]
        ⟨true, true, 0, 0, 0, none, ConnStatus.idle, some false⟩).exitedByBudget = false →
      (readLoop ⟨true, 10⟩ [4, 4, 4]
        ⟨true, true, 0, 0, 0, none, ConnStatus.idle, some false⟩).state.bytes = 0 + [4, 4, 4].sum ∧
      (readLoop ⟨true, 10⟩ [4, 4, 4]
        ⟨true, true, 0, 0, 0, none, ConnStatus.idle, some false⟩).state.bytes < 10) :=
  downloadWorker_budget ⟨true, 10⟩ [4, 4, 4]
    ⟨true, true, 0, 0, 0, none, ConnStatus.idle, some false⟩ 4
    rfl rfl (by decide) (by decide)

/-- The sampling cursor never exceeds the byte counter after any engine
event. -/
theorem opStep_inv (s : EngineState) (op : EngineOp) (h : s.lastBytes ≤ s.bytes) :
    (opStep s op).1.lastBytes ≤ (opStep s op).1.bytes := by
  cases op with
  | addChunk c =>
      show s.lastBytes ≤ s.bytes + c
      omega
  | tick now => by_cases ha : s.active <;> simp [opStep, ha, h]
  | extStop => simpa [opStep, stop] using h
  | budgetStop r => simpa [opStep, stopWithReason] using h

/-- A snapshot published by a single engine event has non-negative speed. -/
theorem opStep_speed_nonneg (s : EngineState) (op : EngineOp) (snap : Snapshot)
    (h : s.lastBytes ≤ s.bytes) (hpub : (opStep s op).2 = some snap) :
    0 ≤ snap.speedBps := by
  cases op with
  | addChunk c => simp [opStep] at hpub
  | tick now =>
      by_cases ha : s.active
      · simp only [opStep, ha, if_true, Option.some.injEq] at hpub
        rw [← hpub]
        simpa using Int.sub_nonneg.mpr (Int.ofNat_le.mpr h)
      · simp [opStep, ha] at hpub
  | extStop => simp [opStep] at hpub
  | budgetStop r => simp [opStep] at hpub

/-- Every snapshot published along a trace has non-negative speed, given that
the cursor starts below the counter. -/
theorem opRun_speed_nonneg (s : EngineState) (tr : List EngineOp)
    (h : s.lastBytes ≤ s.bytes) :
    ∀ snap ∈ (opRun s tr).2, 0 ≤ snap.speedBps := by
  induction tr generalizing s with
  | nil => intro snap hsnap; simp [opRun] at hsnap
  | cons op rest ih =>
      intro snap hsnap
      simp only [opRun] at hsnap
      rcases List.mem_append.mp hsnap with h1 | h2
      · cases hop : (opStep s op).2 with
        | none => rw [hop] at h1; simp at h1
        | some sn =>
            rw [hop] at h1
            simp only [Option.toList_some, List.mem_singleton] at h1
            subst h1
            exact opStep_speed_nonneg s op snap h hop
      · exact ih (opStep s op).1 (opStep_inv s op h) snap h2

/-- Once the run is inactive every event keeps it inactive and publishes no
snapshot. -/
theorem opStep_inactive (s : EngineState) (op : EngineOp) (h : s.active = false) :
    (opStep s op).1.active = false ∧ (opStep s op).2 = none := by
  cases op with
  | addChunk c => exact ⟨h, rfl⟩
  | tick now => simp [opStep, h]
  | extStop => simp [opStep, stop]
  | budgetStop r => simp [opStep, stopWithReason]

/-- A trace starting from an inactive state publishes no snapshot at all. -/
theorem opRun_inactive (s : EngineState) (tr : List EngineOp) (h : s.active = false) :
    (opRun s tr).2 = [] := by
  induction tr generalizing s with
  | nil => simp [opRun]
  | cons op rest ih =>
      obtain ⟨h1, h2⟩ := opStep_inactive s op h
      simp [opRun, h2, ih _ h1]

/-- C8: an active sampler tick publishes exactly the snapshot whose speed is
the byte counter minus the cursor sampled at the previous tick, and moves the
cursor to the counter; every published snapshot has non-negative speed, since
the counter only grows within a run (all events are monotone on it); and once
the run has stopped, no tick publishes a snapshot. -/
theorem sampler_snapshots (s : EngineState) (tr : List EngineOp) (now : Nat)
    (hinv : s.lastBytes ≤ s.bytes) :
    (s.active = true →
      opStep s (EngineOp.tick now) =
        ({ s with lastBytes := s.bytes },
         some ⟨(s.bytes : Int) - (s.lastBytes : Int), s.bytes,
               (now - s.startTime) / 1000⟩)) ∧
    (∀ snap ∈ (opRun s tr).2, 0 ≤ snap.speedBps) ∧
    (∀ op, s.bytes ≤ (opStep s op).1.bytes) ∧
    (s.active = false → (opRun s tr).2 = []) := by
  refine ⟨?_, opRun_speed_nonneg s tr hinv, ?_, opRun_inactive s tr⟩
  · intro ha
    simp [opStep, ha]
  · intro op
    cases op with
    | addChunk c =>
        show s.bytes ≤ s.bytes + c
        omega
    | tick now2 => by_cases ha : s.active <;> simp [opStep, ha]
    | extStop => simp [opStep, stop]
    | budgetStop r => simp [opStep, stopWithReason]

/-- C8 witness: a connected run with 7 counted bytes and cursor 3, a trace
with one chunk, one tick, the budget stop, and one further tick. -/
theorem sampler_snapshots_witness :
    ((⟨true, true, 7, 3, 0, none, ConnStatus.connected, some false⟩ :
        EngineState).active = true →
      opStep ⟨true, true, 7, 3, 0, none, ConnStatus.connected, some false⟩
          (EngineOp.tick 1000) =
        (⟨true, true, 7, 7, 0, none, ConnStatus.connected, some false⟩,
         some ⟨((7 : Nat) : Int) - ((3 : Nat) : Int), 7, (1000 - 0) / 1000⟩)) ∧
    (∀ snap ∈ (opRun ⟨true, true, 7, 3, 0, none, ConnStatus.connected, some false⟩
        [EngineOp.addChunk 5, EngineOp.tick 2000,
         EngineOp.budgetStop (targetReachedMsg 12), EngineOp.tick 3000]).2,
      0 ≤ snap.speedBps) ∧
    (∀ op, (⟨true, true, 7, 3, 0, none, ConnStatus.connected, some false⟩ :
        EngineState).bytes
      ≤ (opStep ⟨true, true, 7, 3, 0, none, ConnStatus.connected, some false⟩ op).1.bytes) ∧
    ((⟨true, true, 7, 3, 0, none, ConnStatus.connected, some false⟩ :
        EngineState).active = false →
      (opRun ⟨true, true, 7, 3, 0, none, ConnStatus.connected, some false⟩
        [EngineOp.addChunk 5, EngineOp.tick 2000,
         EngineOp.budgetStop (targetReachedMsg 12), EngineOp.tick 3000]).2 = []) :=
  sampler_snapshots ⟨true, true, 7, 3, 0, none, ConnStatus.connected, some false⟩
    [EngineOp.addChunk 5, EngineOp.tick 2000,
     EngineOp.budgetStop (targetReachedMsg 12), EngineOp.tick 3000] 1000 (by decide)

end DataWaster
